import Mathlib

/-!
Verification development for the auth-guardrails policy decision engine.

The definitions below are a shallow embedding of the Python sources:
  src/hooks/pre_tool_use_guard.py  (the PreToolUse decision arbiter)
  src/bin/auth_assurance.py        (the standalone run executor)
Pure helper functions of the sources become Lean functions; the stdlib
routines the sources call (fnmatch.fnmatchcase, PurePosixPath.match,
int(...) coercion, str.strip) are modelled explicitly so that every
decision path is executable and decidable.
-/

/-- Whitespace characters removed by Python str.strip() (ASCII subset;
the sources only ever strip git output lines and shell command strings,
which are ASCII). -/
def pyIsSpace (c : Char) : Bool :=
  c == ' ' || c == '\t' || c == '\n' || c == '\r' || c == '\x0b' || c == '\x0c'

/-- Python str.strip() on a character list: drop leading and trailing
whitespace. -/
def pyStripChars (cs : List Char) : List Char :=
  ((cs.dropWhile pyIsSpace).reverse.dropWhile pyIsSpace).reverse

/-- Python str.strip() lifted to strings (used for shell commands, line
  292 of pre_tool_use_guard.py, and git output lines). -/
def pyStrip (s : String) : String :=
  ⟨pyStripChars s.data⟩

/-- Embeds the sources' helper that replaces backslashes with forward
slashes (function named posix-normalize in all three source files). -/
def posixNorm (s : String) : String :=
  ⟨s.data.map (fun c => if c == '\\' then '/' else c)⟩

/-! ### fnmatch.fnmatchcase model

Embeds the CPython fnmatch glob semantics used by the sources:
a star matches any character sequence, a question mark one character,
a bracket expression a character set (with '!' negation, ranges, a
literal ']' when first, and an unterminated '[' taken literally). -/

/-- Scan a character-class body up to the closing bracket; none when the
class is unterminated (in which case fnmatch treats '[' literally). -/
def takeUntilRB : List Char → Option (List Char × List Char)
  | [] => none
  | c :: cs =>
    if c == ']' then some ([], cs)
    else (takeUntilRB cs).map (fun p => (c :: p.1, p.2))

/-- Split a character-class tail after the opening bracket: a leading ']'
belongs to the body (fnmatch scans past it before looking for the
closing bracket). -/
def takeClassBody : List Char → Option (List Char × List Char)
  | ']' :: rest => (takeUntilRB rest).map (fun p => (']' :: p.1, p.2))
  | cs => takeUntilRB cs

/-- Parse a bracket expression after the opening '[': negation flag,
class body, and remaining pattern characters. -/
def parseBracket (cs : List Char) : Option (Bool × List Char × List Char) :=
  match cs with
  | '!' :: rest => (takeClassBody rest).map (fun p => (true, p.1, p.2))
  | _ => (takeClassBody cs).map (fun p => (false, p.1, p.2))

/-- Membership in a parsed character class: triples around a dash are
ranges (as in fnmatch, which skips three positions per range); anything
else is literal. An inverted range matches nothing, as in the compiled
regular expression. -/
def classMember : List Char → Char → Bool
  | [], _ => false
  | a :: '-' :: b :: rest, c => (a ≤ c && c ≤ b) || classMember rest c
  | a :: rest, c => a == c || classMember rest c

/-- Tokens of a compiled glob pattern. -/
inductive GlobTok where
  | star : GlobTok
  | anyChar : GlobTok
  | lit : Char → GlobTok
  | cls : Bool → List Char → GlobTok
deriving DecidableEq

/-- Compile a glob pattern to tokens, mirroring fnmatch.translate:
star and question wildcards, bracket classes, everything else literal,
an unterminated '[' literal. Structural on a fuel counter so kernel
reduction works; a bracket expression consumes at least two pattern
characters, so one unit of fuel per pattern character is sufficient. -/
def compileGlobF : Nat → List Char → List GlobTok
  | 0, _ => []
  | _, [] => []
  | fuel + 1, '*' :: rest => .star :: compileGlobF fuel rest
  | fuel + 1, '?' :: rest => .anyChar :: compileGlobF fuel rest
  | fuel + 1, '[' :: rest =>
    (match parseBracket rest with
     | some (neg, body, rest2) => .cls neg body :: compileGlobF fuel rest2
     | none => .lit '[' :: compileGlobF fuel rest)
  | fuel + 1, c :: rest => .lit c :: compileGlobF fuel rest

/-- Compile a glob pattern with sufficient fuel. -/
def compileGlob (cs : List Char) : List GlobTok :=
  compileGlobF cs.length cs

/-- Match compiled glob tokens against a character list (anchored at both
ends, as fnmatch compiles to a fully anchored regular expression).
Structural on a fuel counter; every recursive call consumes a token or a
character, so tokens plus characters plus one is sufficient fuel. -/
def gmatchF : Nat → List GlobTok → List Char → Bool
  | 0, _, _ => false
  | _, [], s => s.isEmpty
  | fuel + 1, .star :: ps, s =>
    gmatchF fuel ps s ||
      (match s with
       | [] => false
       | _ :: s2 => gmatchF fuel (.star :: ps) s2)
  | fuel + 1, .anyChar :: ps, s =>
    (match s with
     | [] => false
     | _ :: s2 => gmatchF fuel ps s2)
  | fuel + 1, .lit c :: ps, s =>
    (match s with
     | [] => false
     | d :: s2 => c == d && gmatchF fuel ps s2)
  | fuel + 1, .cls neg body :: ps, s =>
    (match s with
     | [] => false
     | d :: s2 => (classMember body d != neg) && gmatchF fuel ps s2)

/-- Match compiled glob tokens with sufficient fuel. -/
def gmatch (ps : List GlobTok) (s : List Char) : Bool :=
  gmatchF (ps.length + s.length + 1) ps s

/-- Embeds fnmatch.fnmatchcase: case-sensitive glob match of a whole
string, as used for shell commands (pre_tool_use_guard.py line 225) and
as the hook's path-pattern fallback (line 155). -/
def fnmatchcase (nm pat : String) : Bool :=
  gmatch (compileGlob pat.data) nm.data

/-! ### PurePosixPath.match model

Embeds the CPython (3.11-era pathlib) PurePosixPath semantics the
sources rely on: a path is parsed into components (empty and single-dot
components dropped, a leading slash recorded as the root), and match
tests the trailing components of the path against the pattern
components with fnmatch per component; an absolute pattern must match
the whole path; a pattern with no components raises ValueError. -/

/-- Split a character list on '/' into raw components. -/
def splitSlash : List Char → List (List Char)
  | [] => [[]]
  | c :: cs =>
    if c == '/' then
      [] :: splitSlash cs
    else
      match splitSlash cs with
      | [] => [[c]]
      | g :: gs => (c :: g) :: gs

/-- PurePosixPath component list: split on slashes, drop empty and
single-dot components (double-dot components are kept, as in pathlib). -/
def pathComponents (s : String) : List (List Char) :=
  (splitSlash s.data).filter (fun c => !(c.isEmpty || c == ['.']))

/-- Whether PurePosixPath treats the string as absolute (leading slash). -/
def pathIsAbs (s : String) : Bool :=
  s.data.head? == some '/'

/-- Match aligned pattern components against path components, fnmatch
per component (lists are already aligned to equal length by the caller). -/
def matchParts (pats parts : List (List Char)) : Bool :=
  (pats.zip parts).all (fun pr => gmatch (compileGlob pr.1) pr.2)

/-- Embeds PurePosixPath(path).match(pattern) of pre_tool_use_guard.py
line 151 and auth_assurance.py line 111. Returns none where CPython
raises ValueError (a pattern with no components, such as the empty
string); some otherwise. The root of an absolute path or pattern is
represented as an extra leading '/' component, as in pathlib parts. -/
def purePathMatch (path pat : String) : Option Bool :=
  let patComps := pathComponents pat
  let patAbs := pathIsAbs pat
  if patComps.isEmpty && !patAbs then
    none
  else
    let pComps := pathComponents path
    let pAbs := pathIsAbs path
    let pp := if patAbs then ['/'] :: patComps else patComps
    let xs := if pAbs then ['/'] :: pComps else pComps
    if patAbs then
      some (pp.length == xs.length && matchParts pp xs)
    else if xs.length < pp.length then
      some false
    else
      some (matchParts pp (xs.drop (xs.length - pp.length)))

/-- Embeds the per-pattern step of the hook's path matcher
(pre_tool_use_guard.py lines 149-156): glob match via PurePosixPath,
falling back to fnmatch on the posix-normalized path when the glob
engine rejects the pattern. -/
def hookMatchOne (path pat : String) : Bool :=
  match purePathMatch (posixNorm path) pat with
  | some b => b
  | none => fnmatchcase (posixNorm path) pat

/-- Embeds the hook's _match_any (pre_tool_use_guard.py lines 147-157):
true when any pattern in the list matches the path. -/
def hookMatchAny (path : String) (patterns : List String) : Bool :=
  patterns.any (hookMatchOne path)

/-- Embeds the per-pattern step of the executor's path matcher
(auth_assurance.py lines 109-115): glob match via PurePosixPath, falling
back to exact string equality of the raw path against the pattern when
the glob engine rejects the pattern. -/
def binMatchOne (path pat : String) : Bool :=
  match purePathMatch (posixNorm path) pat with
  | some b => b
  | none => path == pat

/-- Embeds the executor's _match_any (auth_assurance.py lines 107-116). -/
def binMatchAny (path : String) (patterns : List String) : Bool :=
  patterns.any (binMatchOne path)

/-! ### Python int() coercion and JSON values

The evidence record is JSON read from disk, so its fields can hold any
JSON value. The guard coerces the exit-code fields with int(...) inside
try/except, defaulting to 999 (pre_tool_use_guard.py lines 268-272 and
280-283). JSON floats are not modelled (the executor only ever writes
integer exit codes). -/

/-- A JSON value as read from the evidence state file. -/
inductive JVal where
  | jnull : JVal
  | jint : Int → JVal
  | jbool : Bool → JVal
  | jstr : String → JVal
  | jarr : List JVal → JVal
  | jobj : List (String × JVal) → JVal

/-- Digit run of a Python integer literal: ASCII digits with single
underscores allowed between digits (as accepted by int(str)). -/
def pyDigits : List Char → Nat → Option Nat
  | [], acc => some acc
  | '_' :: c :: cs, acc =>
    if c.isDigit then pyDigits cs (acc * 10 + (c.toNat - 48)) else none
  | ['_'], _ => none
  | c :: cs, acc =>
    if c.isDigit then pyDigits cs (acc * 10 + (c.toNat - 48)) else none

/-- Magnitude part of int(str): must begin with an ASCII digit. -/
def pyNatPart : List Char → Option Nat
  | [] => none
  | c :: cs => if c.isDigit then pyDigits (c :: cs) 0 else none

/-- Embeds Python int(s) on a string: strip whitespace, optional sign,
digits (ASCII); none where CPython raises ValueError. -/
def pyParseInt (s : String) : Option Int :=
  match pyStripChars s.data with
  | '+' :: rest => (pyNatPart rest).map Int.ofNat
  | '-' :: rest => (pyNatPart rest).map (fun n => -(n : Int))
  | rest => (pyNatPart rest).map Int.ofNat

/-- Embeds Python int(v) on a JSON value: ints pass through, booleans
coerce to 0 or 1, strings are parsed; null, arrays and objects raise
TypeError (modelled as none). -/
def pyToInt : JVal → Option Int
  | .jint n => some n
  | .jbool b => some (if b then 1 else 0)
  | .jstr s => pyParseInt s
  | .jnull => none
  | .jarr _ => none
  | .jobj _ => none

/-! ### Evidence record and freshness flags

Embeds the evidence-gathering block of pre_tool_use_guard.py main()
(lines 253-284). -/

/-- The evidence record as consumed by the guard. A missing exit_code
key is none; diff_fingerprint is none when the key is missing or not a
string (either way the comparison with the current fingerprint is
false); profile_exit_codes is none when the key holds a non-dict value
(isinstance check, line 279) and some of the key/value list otherwise,
with a missing key read as the empty dict (dict .get default). The
timestamp is coerced with int() outside any try/except, so the model
takes it as an integer. -/
structure EvState where
  timestamp : Int
  exit_code : Option JVal
  diff_fingerprint : Option String
  profile_exit_codes : Option (List (String × JVal))

/-- Overall exit code of the record after the guard's coercion
(lines 268-272): missing key or a value int() rejects becomes 999. -/
def exitCodeOf (st : EvState) : Int :=
  ((st.exit_code.bind pyToInt).getD 999)

/-- Exit code recorded for the authn-gateway profile after coercion
(lines 280-283): missing entry or a value int() rejects becomes 999. -/
def authnRc (m : List (String × JVal)) : Int :=
  (((m.lookup "authn-gateway").bind pyToInt).getD 999)

/-- The three evidence-freshness booleans of the guard. -/
structure EvFlags where
  evidence_pass : Bool
  ran_fresh_for_diff : Bool
  authn_gateway_pass : Bool
deriving DecidableEq

/-- Embeds lines 262-284 of pre_tool_use_guard.py: compute the evidence
flags from the (possibly absent) state record, the current fingerprint,
the current time and the freshness window. -/
def evFlags (stateOpt : Option EvState) (fp : String) (now maxAge : Int) : EvFlags :=
  match stateOpt with
  | none => ⟨false, false, false⟩
  | some st =>
    let exit_code := exitCodeOf st
    let ok_fp := st.diff_fingerprint == some fp
    let fresh := decide (now - st.timestamp ≤ maxAge)
    let ep := ok_fp && fresh && (exit_code == 0)
    let ran := ok_fp && fresh && (exit_code == 0 || exit_code == 1)
    let authn :=
      match st.profile_exit_codes with
      | some m => ok_fp && fresh && (authnRc m == 0)
      | none => false
    ⟨ep, ran, authn⟩

/-! ### Policy, decisions, audit events and the arbiter

Embeds the rule buckets extracted from the merged security policy by
_policy_lists and _bash_patterns, the allow/ask/deny outputs, the
security events written by _log_security_event, and the top-down
decision chain of pre_tool_use_guard.py main() (lines 230-379). -/

/-- A shell-command rule: pattern (empty string when the key is absent,
in which case the rule never fires) and optional reason. -/
structure BashRule where
  pattern : String
  reason : Option String
deriving DecidableEq

/-- The rule buckets the guard reads from the merged policy:
bash.blocked, bash.confirm, paths.zeroAccess, paths.confirmWrite,
evidence.require_success_for_paths and
evidence.require_confirm_without_evidence_for_paths. -/
structure Policy where
  bashBlocked : List BashRule
  bashConfirm : List BashRule
  zeroAccess : List String
  confirmWrite : List String
  requireSuccessPaths : List String
  requireConfirmPaths : List String
deriving DecidableEq

/-- Embeds _match_bash (pre_tool_use_guard.py lines 222-227): first rule
whose nonempty pattern fnmatch-matches the command wins; its reason
defaults to a fixed string when absent. -/
def matchBash (cmd : String) : List BashRule → Option String
  | [] => none
  | r :: rs =>
    if r.pattern ≠ "" && fnmatchcase cmd r.pattern then
      some (r.reason.getD "matched security policy")
    else
      matchBash cmd rs

/-- The verdict emitted by the guard, with the reason string shown to
the caller for ask and deny. -/
inductive Decision where
  | allow : Decision
  | ask : String → Decision
  | deny : String → Decision
deriving DecidableEq

/-- True exactly on deny verdicts. -/
def Decision.isDeny : Decision → Bool
  | .deny _ => true
  | _ => false

/-- A security event as written by _log_security_event (lines 192-202):
the tool name, the decision field, the reason field when present, and
the subject (command or path). Timestamp, session id and the extra
metadata fields do not affect any decision and are not modelled. -/
structure AuditEvent where
  tool : String
  decision : String
  reason : Option String
  subject : String
deriving DecidableEq

/-- Embeds the Bash branch of main() (lines 287-318): blocked bucket
first (deny), then confirm bucket (ask), else allow; every branch logs
one event. The command has already been stripped by the caller. -/
def bashDecision (pol : Policy) (cmd : String) : Decision × List AuditEvent :=
  match matchBash cmd pol.bashBlocked with
  | some reason =>
    (.deny ("Blocked command (" ++ reason ++ "): " ++ cmd),
     [⟨"Bash", "block", some reason, cmd⟩])
  | none =>
    match matchBash cmd pol.bashConfirm with
    | some reason =>
      (.ask ("High-risk command (" ++ reason ++ "). Confirm?"),
       [⟨"Bash", "ask", some reason, cmd⟩])
    | none =>
      (.allow, [⟨"Bash", "allow", none, cmd⟩])

/-- Embeds the file branch of main() (lines 320-376) for the Edit,
Write and Read tools: zeroAccess deny, then the per-profile verified-
success deny, then the confirm-without-evidence ask, then the
confirm-on-write ask (Edit and Write only), else allow; every branch
logs one event. The path is posix-normalized on entry (line 324). -/
def fileDecision (tool : String) (pol : Policy) (flags : EvFlags)
    (base : String) (rawPath : String) : Decision × List AuditEvent :=
  let path := posixNorm rawPath
  if hookMatchAny path pol.zeroAccess then
    (.deny ("Blocked access to sensitive path: " ++ path),
     [⟨tool, "block", some "zeroAccess", path⟩])
  else if hookMatchAny path pol.requireSuccessPaths && !flags.authn_gateway_pass then
    (.deny ("Auth policy edit requires authn-gateway profile to PASS for current diff vs "
        ++ base ++ ". Run auth_assurance."),
     [⟨tool, "block", some "authn_gateway_not_pass", path⟩])
  else if hookMatchAny path pol.requireConfirmPaths && !flags.ran_fresh_for_diff then
    (.ask ("Auth surface change detected. No fresh Auth Assurance evidence for current diff vs "
        ++ base ++ ". Run auth_assurance (recommended) and confirm."),
     [⟨tool, "ask", some "no_fresh_evidence", path⟩])
  else if (tool == "Edit" || tool == "Write")
      && hookMatchAny path pol.confirmWrite && !flags.ran_fresh_for_diff then
    (.ask ("Editing sensitive path: " ++ path ++ ". Confirm?"),
     [⟨tool, "ask", some "confirmWrite", path⟩])
  else
    (.allow, [⟨tool, "allow", none, path⟩])

/-- One arbitration call's inputs, as gathered by main() before the tool
dispatch: the enablement switch (AUTH_ASSURANCE_ENABLED == "1", line
234), whether both config files loaded nonempty (line 246), the policy
buckets, the freshness window (evidence.max_age_seconds), the evidence
record, the current change fingerprint, the current time, the base
branch name, the tool name, and the command or file path extracted from
tool_input. -/
structure GuardInput where
  enabled : Bool
  configLoaded : Bool
  policy : Policy
  maxAge : Int
  state : Option EvState
  fp : String
  now : Int
  baseBranch : String
  toolName : String
  command : String
  filePath : String

/-- Embeds the decision chain of pre_tool_use_guard.py main(): the
kill-switch allows unconditionally, a missing config pack allows, then
shell commands go through the bash buckets, file tools through the path
buckets using the evidence flags, and unrecognized tools are allowed.
Returns the verdict together with the security events written before
returning. -/
def guardDecision (inp : GuardInput) : Decision × List AuditEvent :=
  if !inp.enabled then
    (.allow, [])
  else if !inp.configLoaded then
    (.allow, [])
  else
    let flags := evFlags inp.state inp.fp inp.now inp.maxAge
    if inp.toolName == "Bash" then
      bashDecision inp.policy (pyStrip inp.command)
    else if inp.toolName == "Edit" || inp.toolName == "Write" || inp.toolName == "Read" then
      fileDecision inp.toolName inp.policy flags inp.baseBranch (posixNorm inp.filePath)
    else
      (.allow, [])

/-! ### Change fingerprinting

Embeds _fingerprint and the sorting performed by _git_diff_files
(pre_tool_use_guard.py lines 160-179, auth_assurance.py lines 90-104).
The SHA-256 digest is modelled by its preimage: the digest is a
deterministic injection applied to the newline-terminated concatenation
of the file list, so every equality between fingerprints proved of the
preimage holds of the hex digest. -/

/-- Embeds _fingerprint: feed each path followed by a newline to the
digest, in list order. -/
def fingerprint (files : List String) : String :=
  files.foldl (fun acc f => acc ++ f ++ "\n") ""

/-- Embeds the line post-processing of _git_diff_files: strip each
output line, drop empties, sort. -/
def gitDiffFiles (lines : List String) : List String :=
  List.insertionSort (fun a b => a ≤ b) ((lines.map pyStrip).filter (fun l => l ≠ ""))

/-- The fingerprint of the change set as every call site computes it:
_fingerprint applied to the sorted _git_diff_files output. -/
def diffFingerprint (lines : List String) : String :=
  fingerprint (gitDiffFiles lines)

/-! ### Run executor loop

Embeds the profile loop of auth_assurance.py cmd_run (lines 235-259):
each selected profile runs in order; exit code 2 forces overall 2 and
stops the loop; any other nonzero exit code forces overall 1 and the
loop continues. -/

/-- One pass of the cmd_run profile loop over (profile, exit code)
pairs, carrying the overall return code accumulator (initially 0).
Returns the final overall code together with the profiles that were
actually executed, in order. -/
def runLoop : List (String × Int) → Int → Int × List String
  | [], overall => (overall, [])
  | (p, rc) :: rest, overall =>
    if rc == 2 then
      (2, [p])
    else
      let overall2 := if rc != 0 then 1 else overall
      let r := runLoop rest overall2
      (r.1, p :: r.2)

/-- Embeds the status banner mapping of cmd_run line 259. -/
def statusOf (rc : Int) : String :=
  if rc == 0 then "PASS" else if rc == 2 then "TOOLING_ERROR" else "FAIL"

/-! ## Helper lemmas -/

theorem posixNorm_idem (s : String) : posixNorm (posixNorm s) = posixNorm s := by
  unfold posixNorm
  congr 1
  simp only [List.map_map]
  apply List.map_congr_left
  intro c _
  by_cases hc : c = '\\'
  · simp [hc, Function.comp]
  · simp [hc, Function.comp]

/-- The ran-fresh flag holds exactly when a record exists for the current
fingerprint, within the freshness window, whose coerced overall exit
code is 0 or 1. -/
theorem evFlags_ran_iff (stateOpt : Option EvState) (fp : String) (now maxAge : Int) :
    (evFlags stateOpt fp now maxAge).ran_fresh_for_diff = true ↔
      ∃ st, stateOpt = some st ∧ st.diff_fingerprint = some fp ∧
        now - st.timestamp ≤ maxAge ∧ (exitCodeOf st = 0 ∨ exitCodeOf st = 1) := by
  cases stateOpt with
  | none => simp [evFlags]
  | some st =>
    simp only [evFlags, Bool.and_eq_true, Bool.or_eq_true, beq_iff_eq,
      decide_eq_true_eq, Option.some.injEq, exists_eq_left']
    constructor
    · rintro ⟨⟨hfp, hfresh⟩, hec⟩
      exact ⟨hfp, hfresh, hec.imp (fun h => h) (fun h => h)⟩
    · rintro ⟨hfp, hfresh, hec⟩
      exact ⟨⟨hfp, hfresh⟩, hec.imp (fun h => h) (fun h => h)⟩

/-- The authn-gateway flag holds exactly when a record exists for the
current fingerprint, within the freshness window, whose profile map is a
dict in which the coerced authn-gateway exit code is 0. -/
theorem evFlags_authn_iff (stateOpt : Option EvState) (fp : String) (now maxAge : Int) :
    (evFlags stateOpt fp now maxAge).authn_gateway_pass = true ↔
      ∃ st m, stateOpt = some st ∧ st.profile_exit_codes = some m ∧
        st.diff_fingerprint = some fp ∧ now - st.timestamp ≤ maxAge ∧ authnRc m = 0 := by
  cases stateOpt with
  | none => simp [evFlags]
  | some st =>
    cases hm : st.profile_exit_codes with
    | none =>
      simp only [evFlags, hm]
      constructor
      · intro h
        simp at h
      · rintro ⟨st2, m, hst2, hpm, -, -, -⟩
        injection hst2 with h2
        subst h2
        rw [hm] at hpm
        exact Option.noConfusion hpm
    | some m =>
      simp only [evFlags, hm, Bool.and_eq_true, beq_iff_eq, decide_eq_true_eq]
      constructor
      · rintro ⟨⟨hfp, hfresh⟩, hrc⟩
        exact ⟨st, m, rfl, hm, hfp, hfresh, hrc⟩
      · rintro ⟨st2, m2, hst2, hpm, hfp, hfresh, hrc⟩
        injection hst2 with h2
        subst h2
        rw [hm] at hpm
        injection hpm with h3
        subst h3
        exact ⟨⟨hfp, hfresh⟩, hrc⟩

/-- With the engine enabled, config loaded and a file tool, the guard
dispatches to the file branch on the posix-normalized path. -/
theorem guardDecision_file (inp : GuardInput)
    (hen : inp.enabled = true) (hcfg : inp.configLoaded = true)
    (htool : inp.toolName = "Edit" ∨ inp.toolName = "Write" ∨ inp.toolName = "Read") :
    guardDecision inp =
      fileDecision inp.toolName inp.policy (evFlags inp.state inp.fp inp.now inp.maxAge)
        inp.baseBranch (posixNorm inp.filePath) := by
  have hb : (inp.toolName == "Bash") = false := by
    rcases htool with h | h | h <;> rw [h] <;> rfl
  have hf : (inp.toolName == "Edit" || inp.toolName == "Write" || inp.toolName == "Read") = true := by
    rcases htool with h | h | h <;> rw [h] <;> rfl
  unfold guardDecision
  rw [hen, hcfg, hb, hf]
  simp

/-- With the engine enabled, config loaded and the Bash tool, the guard
dispatches to the bash branch on the stripped command. -/
theorem guardDecision_bash (inp : GuardInput)
    (hen : inp.enabled = true) (hcfg : inp.configLoaded = true)
    (htool : inp.toolName = "Bash") :
    guardDecision inp = bashDecision inp.policy (pyStrip inp.command) := by
  unfold guardDecision
  rw [hen, hcfg, htool]
  rfl

/-! ## Witness fixtures

Concrete policy, evidence and input used by the witnesses below. -/

/-- A concrete policy with one rule per bucket. -/
def witPolicy : Policy :=
  ⟨[⟨"rm -rf *", some "dangerous removal"⟩],
   [⟨"git push*", some "remote push"⟩],
   ["auth/**"], ["src/auth/**"], ["policies/*.yaml"], ["src/**"]⟩

/-- The fingerprint of the one-file change set used by the witnesses. -/
def witFp : String := diffFingerprint ["src/login.go"]

/-- A fresh, fingerprint-matching evidence record with overall exit code
0 and a passing authn-gateway profile. -/
def witPassState : EvState :=
  ⟨1000, some (.jint 0), some witFp, some [("authn-gateway", .jint 0)]⟩

/-- A baseline guard input at time 1010 with a 3600-second window. -/
def witInput : GuardInput :=
  ⟨true, true, witPolicy, 3600, some witPassState, witFp, 1010,
   "origin/develop", "Read", "", ""⟩

/-! ## Claim theorems -/

/-- C1: for every file read, write or edit action whose path matches a
zeroAccess rule, the decision is deny (with the zeroAccess audit event),
for every evidence record whatsoever — the state, fingerprint, clock and
window are universally quantified, so a fresh, fingerprint-matching
record with exit code 0 changes nothing. -/
theorem c1_zeroAccess_absolute_deny (inp : GuardInput)
    (hen : inp.enabled = true) (hcfg : inp.configLoaded = true)
    (htool : inp.toolName = "Edit" ∨ inp.toolName = "Write" ∨ inp.toolName = "Read")
    (hmatch : hookMatchAny (posixNorm inp.filePath) inp.policy.zeroAccess = true) :
    guardDecision inp =
      (Decision.deny ("Blocked access to sensitive path: " ++ posixNorm inp.filePath),
       [⟨inp.toolName, "block", some "zeroAccess", posixNorm inp.filePath⟩]) := by
  rw [guardDecision_file inp hen hcfg htool]
  simp only [fileDecision, posixNorm_idem, hmatch, if_true]

/-- C1 witness: the spec's scenario A with a fresh passing record in
place — path auth/policy.yaml, rule auth/** in zeroAccess, deny. -/
theorem c1_witness :
    guardDecision { witInput with toolName := "Read", filePath := "auth/policy.yaml" } =
      (Decision.deny ("Blocked access to sensitive path: " ++ posixNorm "auth/policy.yaml"),
       [⟨"Read", "block", some "zeroAccess", posixNorm "auth/policy.yaml"⟩]) :=
  c1_zeroAccess_absolute_deny _ rfl rfl (Or.inr (Or.inr rfl)) (by decide)

/-- C2: for a file action matching a require-verified-success rule (and
no zeroAccess rule), the decision is the authn-gateway deny exactly when
no evidence record exists whose profile map gives the designated
authn-gateway profile a coerced exit code of 0 with matching fingerprint
inside the freshness window; when such a record exists, no deny of any
kind is issued. The record's overall exit code plays no role, so a
record with overall exit code 0 but a different fingerprint stays on the
deny side, and other profiles' failures cannot flip a passing gate. -/
theorem c2_require_success_per_profile_gate (inp : GuardInput)
    (hen : inp.enabled = true) (hcfg : inp.configLoaded = true)
    (htool : inp.toolName = "Edit" ∨ inp.toolName = "Write" ∨ inp.toolName = "Read")
    (hzero : hookMatchAny (posixNorm inp.filePath) inp.policy.zeroAccess = false)
    (hmatch : hookMatchAny (posixNorm inp.filePath) inp.policy.requireSuccessPaths = true) :
    ((guardDecision inp).1 =
        Decision.deny ("Auth policy edit requires authn-gateway profile to PASS for current diff vs "
          ++ inp.baseBranch ++ ". Run auth_assurance.") ↔
      ¬ ∃ st m, inp.state = some st ∧ st.profile_exit_codes = some m ∧
          st.diff_fingerprint = some inp.fp ∧ inp.now - st.timestamp ≤ inp.maxAge ∧
          authnRc m = 0) ∧
    ((∃ st m, inp.state = some st ∧ st.profile_exit_codes = some m ∧
        st.diff_fingerprint = some inp.fp ∧ inp.now - st.timestamp ≤ inp.maxAge ∧
        authnRc m = 0) → (guardDecision inp).1.isDeny = false) := by
  have hfile := guardDecision_file inp hen hcfg htool
  have hiff := evFlags_authn_iff inp.state inp.fp inp.now inp.maxAge
  by_cases hA : (evFlags inp.state inp.fp inp.now inp.maxAge).authn_gateway_pass = true
  · have hex := hiff.mp hA
    have hnd : (guardDecision inp).1.isDeny = false := by
      rw [hfile]
      simp only [fileDecision, posixNorm_idem, hzero, hmatch, hA]
      simp only [Bool.false_eq_true, if_false, Bool.not_true, Bool.and_false, Bool.true_and]
      split
      · rfl
      · split
        · rfl
        · rfl
    refine ⟨⟨fun hd => ?_, fun hn => absurd hex hn⟩, fun _ => hnd⟩
    rw [hd] at hnd
    exact Bool.noConfusion hnd
  · have hnex : ¬ ∃ st m, inp.state = some st ∧ st.profile_exit_codes = some m ∧
        st.diff_fingerprint = some inp.fp ∧ inp.now - st.timestamp ≤ inp.maxAge ∧
        authnRc m = 0 := fun hex => hA (hiff.mpr hex)
    have hA2 : (evFlags inp.state inp.fp inp.now inp.maxAge).authn_gateway_pass = false :=
      Bool.eq_false_iff.mpr hA
    have hd : (guardDecision inp).1 =
        Decision.deny ("Auth policy edit requires authn-gateway profile to PASS for current diff vs "
          ++ inp.baseBranch ++ ". Run auth_assurance.") := by
      rw [hfile]
      simp only [fileDecision, posixNorm_idem, hzero, hmatch, hA2]
      simp
    exact ⟨⟨fun _ => hnex, fun _ => hd⟩, fun hex => absurd hex hnex⟩

/-- C2 witness: a record with overall exit code 0 and a passing
authn-gateway entry but a different fingerprint still gets the deny for
the gated path policies/gateway.yaml. -/
theorem c2_witness :
    (guardDecision { witInput with
        toolName := "Edit"
        filePath := "policies/gateway.yaml"
        state := some ⟨1000, some (.jint 0), some "deadbeef",
          some [("authn-gateway", .jint 0)]⟩ }).1 =
      Decision.deny ("Auth policy edit requires authn-gateway profile to PASS for current diff vs "
        ++ "origin/develop" ++ ". Run auth_assurance.") := by
  apply (c2_require_success_per_profile_gate _ rfl rfl (Or.inl rfl) (by decide) (by decide)).1.mpr
  rintro ⟨st, m, hst, hm, hfp, -, -⟩
  injection hst with h2
  subst h2
  revert hfp
  decide

/-- C3: for a file action matching a require-confirmation-without-
evidence rule, with no earlier deny applying (no zeroAccess match, and
the verified-success gate either unmatched or passing), the decision is
the no-fresh-evidence ask exactly when no record exists whose
fingerprint matches, whose age is within the window, and whose coerced
overall exit code is 0 or 1 — so an absent record, or one coerced to
the tooling-error value, always asks; when such a record exists the
action is allowed. -/
theorem c3_require_confirm_without_evidence (inp : GuardInput)
    (hen : inp.enabled = true) (hcfg : inp.configLoaded = true)
    (htool : inp.toolName = "Edit" ∨ inp.toolName = "Write" ∨ inp.toolName = "Read")
    (hzero : hookMatchAny (posixNorm inp.filePath) inp.policy.zeroAccess = false)
    (hnodeny : hookMatchAny (posixNorm inp.filePath) inp.policy.requireSuccessPaths = false ∨
      (evFlags inp.state inp.fp inp.now inp.maxAge).authn_gateway_pass = true)
    (hmatch : hookMatchAny (posixNorm inp.filePath) inp.policy.requireConfirmPaths = true) :
    ((guardDecision inp).1 =
        Decision.ask ("Auth surface change detected. No fresh Auth Assurance evidence for current diff vs "
          ++ inp.baseBranch ++ ". Run auth_assurance (recommended) and confirm.") ↔
      ¬ ∃ st, inp.state = some st ∧ st.diff_fingerprint = some inp.fp ∧
          inp.now - st.timestamp ≤ inp.maxAge ∧ (exitCodeOf st = 0 ∨ exitCodeOf st = 1)) ∧
    ((∃ st, inp.state = some st ∧ st.diff_fingerprint = some inp.fp ∧
        inp.now - st.timestamp ≤ inp.maxAge ∧ (exitCodeOf st = 0 ∨ exitCodeOf st = 1)) →
      (guardDecision inp).1 = Decision.allow) := by
  have hfile := guardDecision_file inp hen hcfg htool
  have hiff := evFlags_ran_iff inp.state inp.fp inp.now inp.maxAge
  have hc2 : (hookMatchAny (posixNorm inp.filePath) inp.policy.requireSuccessPaths &&
      !(evFlags inp.state inp.fp inp.now inp.maxAge).authn_gateway_pass) = false := by
    rcases hnodeny with h | h
    · rw [h]
      rfl
    · rw [h]
      simp
  by_cases hR : (evFlags inp.state inp.fp inp.now inp.maxAge).ran_fresh_for_diff = true
  · have hex := hiff.mp hR
    have hd : (guardDecision inp).1 = Decision.allow := by
      rw [hfile]
      simp only [fileDecision, posixNorm_idem, hzero, hc2, hR, hmatch]
      simp
    refine ⟨⟨fun hd2 => ?_, fun hn => absurd hex hn⟩, fun _ => hd⟩
    rw [hd] at hd2
    exact Decision.noConfusion hd2
  · have hnex : ¬ ∃ st, inp.state = some st ∧ st.diff_fingerprint = some inp.fp ∧
        inp.now - st.timestamp ≤ inp.maxAge ∧ (exitCodeOf st = 0 ∨ exitCodeOf st = 1) :=
      fun hex => hR (hiff.mpr hex)
    have hR2 : (evFlags inp.state inp.fp inp.now inp.maxAge).ran_fresh_for_diff = false :=
      Bool.eq_false_iff.mpr hR
    have hd : (guardDecision inp).1 =
        Decision.ask ("Auth surface change detected. No fresh Auth Assurance evidence for current diff vs "
          ++ inp.baseBranch ++ ". Run auth_assurance (recommended) and confirm.") := by
      rw [hfile]
      simp only [fileDecision, posixNorm_idem, hzero, hc2, hR2, hmatch]
      simp
    exact ⟨⟨fun _ => hnex, fun _ => hd⟩, fun hex => absurd hex hnex⟩

/-- C3 witness: the spec's scenario B — src/login.go matches the
confirm bucket, no prior record exists, decision is ask. -/
theorem c3_witness :
    (guardDecision { witInput with
        toolName := "Edit"
        filePath := "src/login.go"
        state := none }).1 =
      Decision.ask ("Auth surface change detected. No fresh Auth Assurance evidence for current diff vs "
        ++ "origin/develop" ++ ". Run auth_assurance (recommended) and confirm.") := by
  apply (c3_require_confirm_without_evidence _ rfl rfl (Or.inl rfl) (by decide)
    (Or.inl (by decide)) (by decide)).1.mpr
  rintro ⟨st, hst, -⟩
  exact Option.noConfusion hst

/-- C4: with a record present whose coerced overall exit code is 0 and
a path in the confirm bucket (no deny buckets matching), the action is
allowed exactly when the record's fingerprint equals the current one
and its age is at most the window — the freshness test is exactly the
fingerprint equality conjoined with the inclusive age comparison — and
otherwise the decision is the no-fresh-evidence ask. -/
theorem c4_freshness_inclusive_boundary (inp : GuardInput) (st : EvState)
    (hen : inp.enabled = true) (hcfg : inp.configLoaded = true)
    (htool : inp.toolName = "Edit" ∨ inp.toolName = "Write" ∨ inp.toolName = "Read")
    (hst : inp.state = some st)
    (hexit : exitCodeOf st = 0)
    (hzero : hookMatchAny (posixNorm inp.filePath) inp.policy.zeroAccess = false)
    (hsucc : hookMatchAny (posixNorm inp.filePath) inp.policy.requireSuccessPaths = false)
    (hmatch : hookMatchAny (posixNorm inp.filePath) inp.policy.requireConfirmPaths = true) :
    ((guardDecision inp).1 = Decision.allow ↔
      (st.diff_fingerprint = some inp.fp ∧ inp.now - st.timestamp ≤ inp.maxAge)) ∧
    ((guardDecision inp).1 =
        Decision.ask ("Auth surface change detected. No fresh Auth Assurance evidence for current diff vs "
          ++ inp.baseBranch ++ ". Run auth_assurance (recommended) and confirm.") ↔
      ¬ (st.diff_fingerprint = some inp.fp ∧ inp.now - st.timestamp ≤ inp.maxAge)) := by
  have hmain := c3_require_confirm_without_evidence inp hen hcfg htool hzero
    (Or.inl hsucc) hmatch
  by_cases hfresh : st.diff_fingerprint = some inp.fp ∧ inp.now - st.timestamp ≤ inp.maxAge
  · have hex : ∃ st2, inp.state = some st2 ∧ st2.diff_fingerprint = some inp.fp ∧
        inp.now - st2.timestamp ≤ inp.maxAge ∧ (exitCodeOf st2 = 0 ∨ exitCodeOf st2 = 1) :=
      ⟨st, hst, hfresh.1, hfresh.2, Or.inl hexit⟩
    have hd := hmain.2 hex
    refine ⟨⟨fun _ => hfresh, fun _ => hd⟩, ⟨fun hd2 => ?_, fun hn => absurd hfresh hn⟩⟩
    rw [hd] at hd2
    exact Decision.noConfusion hd2
  · have hnex : ¬ ∃ st2, inp.state = some st2 ∧ st2.diff_fingerprint = some inp.fp ∧
        inp.now - st2.timestamp ≤ inp.maxAge ∧ (exitCodeOf st2 = 0 ∨ exitCodeOf st2 = 1) := by
      rintro ⟨st2, hst2, hfp2, hage2, -⟩
      rw [hst] at hst2
      injection hst2 with h2
      subst h2
      exact hfresh ⟨hfp2, hage2⟩
    have hd := hmain.1.mpr hnex
    refine ⟨⟨fun hd2 => ?_, fun hf => absurd hf hfresh⟩, ⟨fun _ => hnex ∘ ?_, fun _ => hd⟩⟩
    · rw [hd] at hd2
      exact Decision.noConfusion hd2
    · exact fun hf => ⟨st, hst, hf.1, hf.2, Or.inl hexit⟩

/-- C4 witness: with the witness record (timestamp 1000, window 3600),
age exactly 3600 is fresh and allows, age 3601 is stale and asks. -/
theorem c4_witness :
    (guardDecision { witInput with
        toolName := "Edit"
        filePath := "src/login.go"
        now := 4600 }).1 = Decision.allow ∧
    (guardDecision { witInput with
        toolName := "Edit"
        filePath := "src/login.go"
        now := 4601 }).1 =
      Decision.ask ("Auth surface change detected. No fresh Auth Assurance evidence for current diff vs "
        ++ "origin/develop" ++ ". Run auth_assurance (recommended) and confirm.") :=
  ⟨(c4_freshness_inclusive_boundary _ witPassState rfl rfl (Or.inl rfl) rfl (by decide)
      (by decide) (by decide) (by decide)).1.mpr ⟨rfl, by decide⟩,
   (c4_freshness_inclusive_boundary _ witPassState rfl rfl (Or.inl rfl) rfl (by decide)
      (by decide) (by decide) (by decide)).2.mpr (by decide)⟩

/-- C5: for shell commands the blocked bucket is evaluated first —
a blocked match denies whatever the confirm bucket holds; with no
blocked match, a confirm match asks; with neither, the command is
allowed. -/
theorem c5_bash_blocked_dominates (inp : GuardInput)
    (hen : inp.enabled = true) (hcfg : inp.configLoaded = true)
    (htool : inp.toolName = "Bash") :
    (∀ r, matchBash (pyStrip inp.command) inp.policy.bashBlocked = some r →
      guardDecision inp =
        (Decision.deny ("Blocked command (" ++ r ++ "): " ++ pyStrip inp.command),
         [⟨"Bash", "block", some r, pyStrip inp.command⟩])) ∧
    (matchBash (pyStrip inp.command) inp.policy.bashBlocked = none →
      ∀ r, matchBash (pyStrip inp.command) inp.policy.bashConfirm = some r →
        guardDecision inp =
          (Decision.ask ("High-risk command (" ++ r ++ "). Confirm?"),
           [⟨"Bash", "ask", some r, pyStrip inp.command⟩])) ∧
    (matchBash (pyStrip inp.command) inp.policy.bashBlocked = none →
      matchBash (pyStrip inp.command) inp.policy.bashConfirm = none →
      guardDecision inp = (Decision.allow, [⟨"Bash", "allow", none, pyStrip inp.command⟩])) := by
  have hb := guardDecision_bash inp hen hcfg htool
  refine ⟨fun r hr => ?_, fun hn r hr => ?_, fun hn hn2 => ?_⟩
  · rw [hb]
    unfold bashDecision
    rw [hr]
  · rw [hb]
    unfold bashDecision
    rw [hn, hr]
  · rw [hb]
    unfold bashDecision
    rw [hn, hn2]

/-- C5 witness: the command rm -rf / matches both the blocked rule
rm -rf * and a confirm rule rm *, and the verdict is the blocked deny
(the spec's scenario D plus the dominance case). -/
theorem c5_witness :
    matchBash (pyStrip "rm -rf /") [⟨"rm *", some "any removal"⟩] = some "any removal" ∧
    guardDecision { witInput with
        toolName := "Bash"
        command := "rm -rf /"
        policy := { witPolicy with bashConfirm := [⟨"rm *", some "any removal"⟩] } } =
      (Decision.deny ("Blocked command (" ++ "dangerous removal" ++ "): " ++ pyStrip "rm -rf /"),
       [⟨"Bash", "block", some "dangerous removal", pyStrip "rm -rf /"⟩]) :=
  ⟨by decide,
   (c5_bash_blocked_dominates _ rfl rfl rfl).1 "dangerous removal" (by decide)⟩

/-- C6: the change-set fingerprint is order-independent — permuting the
raw diff lines leaves the fingerprint unchanged, because the path list
is sorted before the newline-delimited entries are fed to the digest. -/
theorem c6_fingerprint_order_independent (l1 l2 : List String) (h : l1.Perm l2) :
    diffFingerprint l1 = diffFingerprint l2 := by
  unfold diffFingerprint gitDiffFiles
  congr 1
  apply List.eq_of_perm_of_sorted (r := fun a b => a ≤ b)
  · exact ((List.perm_insertionSort _ _).trans (((h.map pyStrip).filter _))).trans
      (List.perm_insertionSort _ _).symm
  · exact List.sorted_insertionSort _ _
  · exact List.sorted_insertionSort _ _

/-- C6 witness: a two-path change set fingerprints identically in
either order. -/
theorem c6_witness :
    diffFingerprint ["src/login.go", "auth/policy.yaml"] =
      diffFingerprint ["auth/policy.yaml", "src/login.go"] :=
  c6_fingerprint_order_independent _ _ (by decide)

/-- Guard input with the engine kill-switch off and a blocked-pattern
command, used to exhibit a decision branch that emits no audit event. -/
def c7DisabledInput : GuardInput :=
  { witInput with
      enabled := false
      toolName := "Bash"
      command := "rm -rf /" }

/-- C7 counterexample: the engine-disabled short-circuit returns the
allow decision with an empty audit trail — no event is emitted before
returning, contrary to the claim that every decision branch (the
engine-disabled short-circuit included) emits one. -/
theorem c7_counterexample :
    guardDecision c7DisabledInput = (Decision.allow, []) := by
  decide

/-- C7 amended: the Bash and file-action handlers emit exactly one
audit event on every branch, allow branches included; but the
engine-disabled short-circuit, the missing-config fail-open branch and
the unknown-tool default allow all return without emitting any event. -/
theorem c7_audit_coverage (inp : GuardInput) :
    (inp.enabled = true → inp.configLoaded = true →
      (inp.toolName = "Bash" ∨ inp.toolName = "Edit" ∨ inp.toolName = "Write" ∨
        inp.toolName = "Read") →
      (guardDecision inp).2.length = 1) ∧
    (inp.enabled = false → (guardDecision inp).2 = []) ∧
    (inp.configLoaded = false → (guardDecision inp).2 = []) ∧
    (inp.toolName ≠ "Bash" → inp.toolName ≠ "Edit" → inp.toolName ≠ "Write" →
      inp.toolName ≠ "Read" → (guardDecision inp).2 = []) := by
  refine ⟨fun hen hcfg htool => ?_, fun hdis => ?_, fun hcfg3 => ?_, fun hB hE hW hR => ?_⟩
  · rcases htool with hB | hE | hW | hR
    · rw [guardDecision_bash inp hen hcfg hB]
      unfold bashDecision
      split
      · rfl
      split
      · rfl
      · rfl
    all_goals
      first
      | rw [guardDecision_file inp hen hcfg (Or.inl hE)]
      | rw [guardDecision_file inp hen hcfg (Or.inr (Or.inl hW))]
      | rw [guardDecision_file inp hen hcfg (Or.inr (Or.inr hR))]
    all_goals
      simp only [fileDecision]
      split
      · rfl
      split
      · rfl
      split
      · rfl
      split
      · rfl
      · rfl
  · unfold guardDecision
    rw [hdis]
    rfl
  · unfold guardDecision
    cases hen2 : inp.enabled with
    | false => rfl
    | true =>
      rw [hcfg3]
      rfl
  · unfold guardDecision
    cases hen2 : inp.enabled with
    | false => rfl
    | true =>
      cases hcf2 : inp.configLoaded with
      | false => rfl
      | true =>
        have h1 : (inp.toolName == "Bash") = false :=
          beq_eq_false_iff_ne.mpr hB
        have h2 : (inp.toolName == "Edit" || inp.toolName == "Write" ||
            inp.toolName == "Read") = false := by
          simp only [Bool.or_eq_false_iff, beq_eq_false_iff_ne, ne_eq]
          exact ⟨⟨hE, hW⟩, hR⟩
        rw [h1, h2]
        rfl

/-- C7 amended witness: an allowed Bash command inside the enabled
guard produces exactly one audit event. -/
theorem c7_witness :
    (guardDecision { witInput with
        toolName := "Bash"
        command := "ls" }).2.length = 1 :=
  (c7_audit_coverage _).1 rfl rfl (Or.inl rfl)

/-! ### Lemmas for the glob-rejection fallback -/

theorem splitSlash_ne_nil (cs : List Char) : splitSlash cs ≠ [] := by
  induction cs with
  | nil => simp [splitSlash]
  | cons c rest ih =>
    simp only [splitSlash]
    by_cases hc : (c == '/') = true
    · rw [if_pos hc]
      simp
    · rw [if_neg hc]
      cases hs : splitSlash rest with
      | nil => simp
      | cons g gs => simp

/-- If every raw component of a character list is empty or a single
dot, then the list holds only dot and slash characters. -/
theorem splitSlash_trivial_chars (cs : List Char)
    (hg : ∀ g ∈ splitSlash cs, g = [] ∨ g = ['.']) :
    ∀ c ∈ cs, c = '.' ∨ c = '/' := by
  induction cs with
  | nil =>
    intro c hc
    exact absurd hc (List.not_mem_nil c)
  | cons c rest ih =>
    intro d hd
    by_cases hc : (c == '/') = true
    · have hceq : c = '/' := by simpa using hc
      subst hceq
      have hs : splitSlash ('/' :: rest) = [] :: splitSlash rest := by
        simp [splitSlash]
      rw [hs] at hg
      rcases List.mem_cons.mp hd with rfl | hd2
      · exact Or.inr rfl
      · exact ih (fun g hg2 => hg g (List.mem_cons_of_mem _ hg2)) d hd2
    · obtain ⟨g0, gs, hrest⟩ : ∃ g0 gs, splitSlash rest = g0 :: gs := by
        cases hsp : splitSlash rest with
        | nil => exact absurd hsp (splitSlash_ne_nil rest)
        | cons a as => exact ⟨a, as, rfl⟩
      have hs : splitSlash (c :: rest) = (c :: g0) :: gs := by
        simp only [splitSlash, hrest]
        rw [if_neg hc]
      rw [hs] at hg
      have hhead := hg (c :: g0) (List.mem_cons_self _ _)
      rcases hhead with h | h
      · exact absurd h (by simp)
      · have hc2 : c = '.' ∧ g0 = [] := by
          injection h with h1 h2
          exact ⟨h1, h2⟩
        rcases List.mem_cons.mp hd with rfl | hd2
        · exact Or.inl hc2.1
        · apply ih ?_ d hd2
          intro g hg2
          rw [hrest] at hg2
          rcases List.mem_cons.mp hg2 with rfl | hg3
          · exact Or.inl hc2.2
          · exact hg g (List.mem_cons_of_mem _ hg3)

/-- A glob pattern containing only dot and slash characters compiles to
a pure literal token list. -/
theorem compileGlobF_trivial (cs : List Char) :
    ∀ (fuel : Nat), cs.length ≤ fuel → (∀ c ∈ cs, c = '.' ∨ c = '/') →
      compileGlobF fuel cs = cs.map GlobTok.lit := by
  induction cs with
  | nil =>
    intro fuel _ _
    cases fuel <;> rfl
  | cons c rest ih =>
    intro fuel hlen hchars
    match fuel, hlen with
    | f + 1, hlen =>
      have hrest : ∀ x ∈ rest, x = '.' ∨ x = '/' :=
        fun x hx => hchars x (List.mem_cons_of_mem _ hx)
      have hlen2 : rest.length ≤ f := by
        simpa using hlen
      rcases hchars c (List.mem_cons_self _ _) with hc | hc
      · subst hc
        have hstep : compileGlobF (f + 1) ('.' :: rest) =
            GlobTok.lit '.' :: compileGlobF f rest := rfl
        rw [hstep, ih f hlen2 hrest]
        rfl
      · subst hc
        have hstep : compileGlobF (f + 1) ('/' :: rest) =
            GlobTok.lit '/' :: compileGlobF f rest := rfl
        rw [hstep, ih f hlen2 hrest]
        rfl

/-- Matching a pure literal token list is exact list equality. -/
theorem gmatchF_lit (l : List Char) :
    ∀ (fuel : Nat) (s : List Char), l.length + 1 ≤ fuel →
      gmatchF fuel (l.map GlobTok.lit) s = (l == s) := by
  induction l with
  | nil =>
    intro fuel s hf
    match fuel, hf with
    | f + 1, _ =>
      cases s <;> rfl
  | cons c rest ih =>
    intro fuel s hf
    match fuel, hf with
    | f + 1, hf =>
      cases s with
      | nil => rfl
      | cons d s2 =>
        have hstep : gmatchF (f + 1) (GlobTok.lit c :: rest.map GlobTok.lit) (d :: s2) =
            (c == d && gmatchF f (rest.map GlobTok.lit) s2) := rfl
        have hf2 : rest.length + 1 ≤ f := by
          simpa using hf
        show gmatchF (f + 1) (GlobTok.lit c :: rest.map GlobTok.lit) (d :: s2) =
          (c :: rest == d :: s2)
        rw [hstep, ih f s2 hf2]
        rfl

/-- On a pattern of only dot and slash characters, fnmatch degenerates
to exact string equality. -/
theorem fnmatchcase_trivial (x pat : String)
    (hch : ∀ c ∈ pat.data, c = '.' ∨ c = '/') :
    fnmatchcase x pat = (x == pat) := by
  unfold fnmatchcase gmatch compileGlob
  rw [compileGlobF_trivial pat.data pat.data.length (le_refl _) hch]
  rw [gmatchF_lit pat.data _ x.data (by simp)]
  rw [Bool.eq_iff_iff]
  simp only [beq_iff_eq]
  constructor
  · intro h2
    exact (String.ext h2).symm
  · intro h2
    rw [h2]

/-- A pattern the glob engine rejects has no path components. -/
theorem purePathMatch_none_parts (path pat : String)
    (h : purePathMatch path pat = none) : pathComponents pat = [] := by
  by_cases hcond : ((pathComponents pat).isEmpty && !pathIsAbs pat) = true
  · rw [Bool.and_eq_true] at hcond
    exact List.isEmpty_iff.mp hcond.1
  · exfalso
    have hne : purePathMatch path pat ≠ none := by
      simp only [purePathMatch]
      rw [if_neg hcond]
      split
      · simp
      split <;> split <;> simp
    exact hne h

/-- C8: path pattern matching is total for every candidate path and
pattern — the glob-engine rejection is caught in both matchers — and
where the glob engine rejects the pattern the observable behavior of
both matchers is exact string equality: the executor falls back to
literal equality of the raw path by definition, and the hook's fnmatch
fallback coincides with literal equality of the normalized path
because every rejected pattern consists solely of dot and slash
characters, which fnmatch treats literally. Where the glob engine
accepts the pattern, both matchers return its verdict. -/
theorem c8_malformed_pattern_literal_fallback (path pat : String) :
    (∀ b, purePathMatch (posixNorm path) pat = some b →
      hookMatchOne path pat = b ∧ binMatchOne path pat = b) ∧
    (purePathMatch (posixNorm path) pat = none →
      hookMatchOne path pat = (posixNorm path == pat) ∧
      binMatchOne path pat = (path == pat)) := by
  constructor
  · intro b hsome
    constructor
    · unfold hookMatchOne
      rw [hsome]
    · unfold binMatchOne
      rw [hsome]
  · intro hnone
    have hcomp := purePathMatch_none_parts (posixNorm path) pat hnone
    have hch : ∀ c ∈ pat.data, c = '.' ∨ c = '/' := by
      apply splitSlash_trivial_chars
      intro g hg
      have hfil := List.filter_eq_nil_iff.mp hcomp g hg
      simp only [Bool.not_eq_true', Bool.not_eq_false] at hfil
      rw [Bool.or_eq_true] at hfil
      rcases hfil with h1 | h1
      · exact Or.inl (List.isEmpty_iff.mp h1)
      · exact Or.inr (by simpa using h1)
    constructor
    · unfold hookMatchOne
      rw [hnone]
      exact fnmatchcase_trivial (posixNorm path) pat hch
    · unfold binMatchOne
      rw [hnone]

/-- C8 witness: the single-dot pattern is rejected by the glob engine,
and both matchers then behave as literal equality on it. -/
theorem c8_witness :
    hookMatchOne "." "." = (posixNorm "." == ".") ∧
    binMatchOne "." "." = ("." == ".") :=
  (c8_malformed_pattern_literal_fallback "." ".").2 (by decide)

/-! ### Lemmas for the run-executor loop -/

theorem runLoop_executes_all (l : List (String × Int)) :
    ∀ acc, (∀ q ∈ l, q.2 ≠ 2) → (runLoop l acc).2 = l.map Prod.fst := by
  induction l with
  | nil =>
    intro acc _
    rfl
  | cons p rest ih =>
    intro acc h2
    obtain ⟨pn, rc⟩ := p
    have hrc : rc ≠ 2 := h2 (pn, rc) (List.mem_cons_self _ _)
    have hrc2 : (rc == 2) = false := beq_eq_false_iff_ne.mpr hrc
    simp only [runLoop, hrc2, Bool.false_eq_true, if_false, List.map_cons]
    rw [ih _ (fun q hq => h2 q (List.mem_cons_of_mem _ hq))]

theorem runLoop_sticky_fail (l : List (String × Int)) :
    (∀ q ∈ l, q.2 ≠ 2) → (runLoop l 1).1 = 1 := by
  induction l with
  | nil =>
    intro _
    rfl
  | cons p rest ih =>
    intro h2
    obtain ⟨pn, rc⟩ := p
    have hrc : rc ≠ 2 := h2 (pn, rc) (List.mem_cons_self _ _)
    have hrc2 : (rc == 2) = false := beq_eq_false_iff_ne.mpr hrc
    have hrest := ih (fun q hq => h2 q (List.mem_cons_of_mem _ hq))
    simp only [runLoop, hrc2, Bool.false_eq_true, if_false]
    by_cases h0 : (rc != 0) = true
    · rw [if_pos h0]
      exact hrest
    · rw [if_neg h0]
      exact hrest

theorem runLoop_fail_of_nonzero (l : List (String × Int)) :
    (∀ q ∈ l, q.2 ≠ 2) → (∃ q ∈ l, q.2 ≠ 0) → (runLoop l 0).1 = 1 := by
  induction l with
  | nil =>
    rintro _ ⟨q, hq, -⟩
    exact absurd hq (List.not_mem_nil q)
  | cons p rest ih =>
    rintro h2 ⟨q, hq, hq0⟩
    obtain ⟨pn, rc⟩ := p
    have hrc : rc ≠ 2 := h2 (pn, rc) (List.mem_cons_self _ _)
    have hrc2 : (rc == 2) = false := beq_eq_false_iff_ne.mpr hrc
    have h2rest : ∀ r ∈ rest, r.2 ≠ 2 := fun r hr => h2 r (List.mem_cons_of_mem _ hr)
    simp only [runLoop, hrc2, Bool.false_eq_true, if_false]
    by_cases h0 : (rc != 0) = true
    · rw [if_pos h0]
      exact runLoop_sticky_fail rest h2rest
    · rw [if_neg h0]
      have hrc0 : rc = 0 := by
        simpa using h0
      rcases List.mem_cons.mp hq with rfl | hqr
      · exact absurd hrc0 hq0
      · exact ih h2rest ⟨q, hqr, hq0⟩

theorem runLoop_stops_at_two (pre : List (String × Int)) (p : String × Int)
    (post : List (String × Int)) (h2 : ∀ q ∈ pre, q.2 ≠ 2) (hp : p.2 = 2) :
    ∀ acc, runLoop (pre ++ p :: post) acc = (2, pre.map Prod.fst ++ [p.1]) := by
  induction pre with
  | nil =>
    intro acc
    obtain ⟨pn, rc⟩ := p
    have : rc = 2 := hp
    subst this
    rfl
  | cons q pre2 ih =>
    intro acc
    obtain ⟨qn, qc⟩ := q
    have hqc : qc ≠ 2 := h2 (qn, qc) (List.mem_cons_self _ _)
    have hqc2 : (qc == 2) = false := beq_eq_false_iff_ne.mpr hqc
    simp only [List.cons_append, runLoop, hqc2, Bool.false_eq_true, if_false, List.map_cons,
      List.append_eq]
    rw [ih (fun r hr => h2 r (List.mem_cons_of_mem _ hr))]

/-- C9: a profile exiting with the reserved tooling-error code 2 stops
the loop at that profile — every earlier profile ran, no later profile
runs, the overall code is 2 and the banner says TOOLING_ERROR —
whereas if no profile exits 2 and some profile exits nonzero, every
profile runs and the overall code is 1 (FAIL). -/
theorem c9_tooling_error_short_circuits :
    (∀ (pre post : List (String × Int)) (p : String × Int),
      (∀ q ∈ pre, q.2 ≠ 2) → p.2 = 2 →
      runLoop (pre ++ p :: post) 0 = (2, pre.map Prod.fst ++ [p.1]) ∧
      statusOf (runLoop (pre ++ p :: post) 0).1 = "TOOLING_ERROR") ∧
    (∀ l : List (String × Int),
      (∀ q ∈ l, q.2 ≠ 2) → (∃ q ∈ l, q.2 ≠ 0) →
      (runLoop l 0).1 = 1 ∧ (runLoop l 0).2 = l.map Prod.fst ∧
      statusOf (runLoop l 0).1 = "FAIL") := by
  constructor
  · intro pre post p h2 hp
    have h := runLoop_stops_at_two pre p post h2 hp 0
    refine ⟨h, ?_⟩
    rw [h]
    rfl
  · intro l h2 hfail
    have h1 := runLoop_fail_of_nonzero l h2 hfail
    refine ⟨h1, runLoop_executes_all l 0 h2, ?_⟩
    rw [h1]
    rfl

/-- C9 witness: the spec's scenario E — two profiles selected, the
first exits 2, the second never runs and the overall status is the
tooling error. -/
theorem c9_witness :
    runLoop [("authn-gateway", 2), ("session-store", 0)] 0 = (2, ["authn-gateway"]) ∧
    statusOf (runLoop [("authn-gateway", 2), ("session-store", 0)] 0).1 = "TOOLING_ERROR" :=
  c9_tooling_error_short_circuits.1 [] [("session-store", 0)] ("authn-gateway", 2)
    (by simp) rfl

/-- C10: a missing exit_code key, or one whose value the int() coercion
rejects, is read as 999, so the record never counts as passing and
never counts as a completed run; likewise a missing or uncoercible
authn-gateway entry in the profile map is read as 999 and never
satisfies the per-profile success gate. The arbitration is a total
function of the record, so no such value can raise. -/
theorem c10_uncoercible_exit_code_is_999 (st : EvState) (fp : String) (now maxAge : Int) :
    ((st.exit_code = none ∨ ∃ v, st.exit_code = some v ∧ pyToInt v = none) →
      exitCodeOf st = 999 ∧
      (evFlags (some st) fp now maxAge).evidence_pass = false ∧
      (evFlags (some st) fp now maxAge).ran_fresh_for_diff = false) ∧
    (∀ m, st.profile_exit_codes = some m →
      (m.lookup "authn-gateway" = none ∨
        ∃ v, m.lookup "authn-gateway" = some v ∧ pyToInt v = none) →
      authnRc m = 999 ∧
      (evFlags (some st) fp now maxAge).authn_gateway_pass = false) := by
  constructor
  · intro hbad
    have h999 : exitCodeOf st = 999 := by
      rcases hbad with h | ⟨v, hv, hv2⟩
      · simp [exitCodeOf, h]
      · simp [exitCodeOf, hv, hv2]
    refine ⟨h999, ?_, ?_⟩
    · simp [evFlags, h999]
    · simp [evFlags, h999]
  · intro m hm hbad
    have h999 : authnRc m = 999 := by
      rcases hbad with h | ⟨v, hv, hv2⟩
      · simp [authnRc, h]
      · simp [authnRc, hv, hv2]
    refine ⟨h999, ?_⟩
    simp [evFlags, hm, h999]

/-- C10 witness: a record whose exit_code is the string oops and whose
authn-gateway entry is null coerces both to 999 and passes no gate. -/
theorem c10_witness :
    exitCodeOf ⟨1000, some (.jstr "oops"), some "x", some [("authn-gateway", .jnull)]⟩ = 999 ∧
    (evFlags (some ⟨1000, some (.jstr "oops"), some "x", some [("authn-gateway", .jnull)]⟩)
      "x" 1000 3600).ran_fresh_for_diff = false ∧
    authnRc [("authn-gateway", JVal.jnull)] = 999 ∧
    (evFlags (some ⟨1000, some (.jstr "oops"), some "x", some [("authn-gateway", .jnull)]⟩)
      "x" 1000 3600).authn_gateway_pass = false := by
  have h := c10_uncoercible_exit_code_is_999
    ⟨1000, some (.jstr "oops"), some "x", some [("authn-gateway", .jnull)]⟩ "x" 1000 3600
  have h1 := h.1 (Or.inr ⟨.jstr "oops", rfl, by decide⟩)
  have h2 := h.2 [("authn-gateway", JVal.jnull)] rfl (Or.inr ⟨.jnull, rfl, rfl⟩)
  exact ⟨h1.1, h1.2.2, h2.1, h2.2⟩
